import Mathlib

/-!
Verification of the `go-middleware` JWT HS256 authentication gate
(`jwt_hs256.go`, package `mw`).

The embedding models:
* `Values` — Go's `url.Values` / `http.Header`: an ordered multimap from
  string keys to string values, represented as an ordered list of pairs.
* `Request` — the fields of `*http.Request` the code touches: the header,
  the already-parsed URL query, and the form-encoded body.  `postBody = none`
  models a body whose form-parse (`r.ParseForm()`) fails.
* `Bearer` — the token locator, translated line by line from the source.
  `BearerResult` also records the request mutation the locator performs
  (`r.Form` and `r.PostForm` after the call; `none` = still unset because
  `ParseForm` was never reached; on a `ParseForm` failure the partially
  parsed state is not observable by any claim and is left unmodelled).
* `parseWithClaims` — the external `jwt-go` library call, modelled from the
  spec (see its doc comment).
* `JwtHS256` — the gate handler, translated from the source; `GateResult`
  records either the HTTP error written (`next` not invoked) or the context
  with which `next` is invoked.
* `Context` / `GetClaimsFromContext` — Go's `context.Context` chain of
  key/value pairs, with the private `claimsKey` and values of other dynamic
  types modelled explicitly.
-/

namespace MW

/-- The authorization key parameter, `jwtAuthKey` in the source. -/
def jwtAuthKey : String := "Authorization"

/-- Ordered multimap of string keys to string values, modelling Go's
`url.Values` and `http.Header` for the keys the code uses. -/
abbrev Values : Type := List (String × String)

/-- All values stored under key `k`, in order: Go's `vs[k]`. -/
def getAll (vs : Values) (k : String) : List String :=
  (vs.filter (fun p => p.1 = k)).map (fun p => p.2)

/-- First element of a value list, or `""` when empty: the behaviour of
`http.Header.Get` and `url.Values.Get`/`FormValue` on a value slice. -/
def firstOrEmpty : List String → String
  | [] => ""
  | v :: _ => v

/-- `http.Header.Get k`: the first value for `k`, or `""`. -/
def headerGet (vs : Values) (k : String) : String :=
  firstOrEmpty (getAll vs k)

/-- The first non-empty string in a list, if any: the loop
`for _, bearer = range r.URL.Query()[jwtAuthKey]` with its non-empty check. -/
def firstNonEmpty : List String → Option String
  | [] => none
  | v :: vs => if v ≠ "" then some v else firstNonEmpty vs

/-- Remove every entry under key `k`: Go's `delete(m, k)` on a multimap. -/
def eraseKey (vs : Values) (k : String) : Values :=
  vs.filter (fun p => p.1 ≠ k)

/-- The fields of `*http.Request` that `Bearer` reads.  `query` is the parsed
result of `r.URL.Query()`; `postBody = some vs` is a form-encoded body that
parses to `vs`, and `postBody = none` a body on which `ParseForm` fails. -/
structure Request where
  header : Values
  query : Values
  postBody : Option Values

/-- The observable outcome of `Bearer r`: the returned pair, plus the state
of `r.Form` and `r.PostForm` after the call (`none` = never populated). -/
structure BearerResult where
  bearer : String
  found : Bool
  form : Option Values
  postForm : Option Values
deriving DecidableEq

/-- `Bearer` gets the bearer out of a given request object (source lines
59–82).  Header first; then the first non-empty repeated query parameter;
then `ParseForm` (failure → not found), `FormValue` over the merged form
(body values before query values, as `ParseForm` builds `r.Form`), removing
the key from `r.PostForm` when the token is taken from the form. -/
def Bearer (r : Request) : BearerResult :=
  if headerGet r.header jwtAuthKey ≠ "" then
    ⟨headerGet r.header jwtAuthKey, true, none, none⟩
  else
    match firstNonEmpty (getAll r.query jwtAuthKey) with
    | some v => ⟨v, true, none, none⟩
    | none =>
      match r.postBody with
      | none => ⟨"", false, none, none⟩
      | some body =>
        if firstOrEmpty (getAll (body ++ r.query) jwtAuthKey) ≠ "" then
          ⟨firstOrEmpty (getAll (body ++ r.query) jwtAuthKey), true,
            some (body ++ r.query), some (eraseKey body jwtAuthKey)⟩
        else
          ⟨"", false, some (body ++ r.query), some body⟩

/-- Modelled from the spec: a declared signing algorithm, as named by the
token's `alg` header, together with whether Go's method lookup resolves it
to the symmetric HMAC family (`*jwt.SigningMethodHMAC`). -/
structure Alg where
  name : String
  hmacFamily : Bool
deriving DecidableEq

/-- Modelled from the spec: the structural decode of a compact three-segment
token (`header.payload.signature` in base64url).  Either the structure or the
claim payload fails to decode with some error message, or it yields the
declared algorithm, the decoded claim set, the signing input (the
`header.payload` prefix) and the signature bytes. -/
inductive TokenWire (C : Type) where
  | malformed (msg : String)
  | wellFormed (alg : Alg) (claims : C) (signingInput : String) (sig : String)

/-- Result of the library parse: an error with a message, or a parsed token
carrying the decoded claims and the `token.Valid` flag. -/
inductive ParseResult (C : Type) where
  | err (msg : String)
  | ok (claims : C) (valid : Bool)

/-- Modelled from the spec: `jwt.ParseWithClaims` specialised to the gate's
key function (source lines 35–41).  Missing from `src/`: the `jwt-go`
library.  Per the spec: decode header/payload/signature (failure is a parse
error surfaced verbatim); reject any declared algorithm outside the HMAC
family with the gate's own error message (the algorithm-confusion defense,
a parse failure); verify the HMAC signature over the signing input with the
secret (`hmac` abstracts the MAC computation); a parsed token's validity is
the claim set's own validity predicate `validC`. -/
def parseWithClaims {C : Type} (secret : String) (hmac : String → String → String)
    (validC : C → Bool) : TokenWire C → ParseResult C
  | .malformed msg => .err msg
  | .wellFormed alg claims signingInput sig =>
    if alg.hmacFamily = false then
      .err ("unexpected signing method: " ++ alg.name)
    else if hmac secret signingInput ≠ sig then
      .err "signature is invalid"
    else
      .ok claims (validC claims)

/-- A context key: the private `claimsKey` struct key, or any key belonging
to unrelated code. -/
inductive CtxKey where
  | claimsKey
  | otherKey (s : String)
deriving DecidableEq

/-- A context value: a value of the dynamic type `Claims` (carrying a claim
set), or a value of any other dynamic type, on which the type assertion
`.(Claims)` fails. -/
inductive CtxVal (C : Type) where
  | claimsVal (c : C)
  | otherVal

/-- A `context.Context`: the chain of key/value pairs added by `WithValue`,
nearest first. -/
abbrev Context (C : Type) : Type := List (CtxKey × CtxVal C)

/-- `ctx.Value k`: the value stored under `k` nearest to the leaf, if any. -/
def ctxValue {C : Type} : Context C → CtxKey → Option (CtxVal C)
  | [], _ => none
  | (k, v) :: rest, key => if k = key then some v else ctxValue rest key

/-- `context.WithValue ctx k v`. -/
def withValue {C : Type} (ctx : Context C) (k : CtxKey) (v : CtxVal C) : Context C :=
  (k, v) :: ctx

/-- `GetClaimsFromContext` (source lines 85–88): the comma-ok type assertion
`ctx.Value(claimsKey{}).(Claims)`, returning the zero value of the interface
(`none`) when the key is absent or the stored value has another type. -/
def GetClaimsFromContext {C : Type} (ctx : Context C) : Option C :=
  match ctxValue ctx CtxKey.claimsKey with
  | some (CtxVal.claimsVal c) => some c
  | _ => none

/-- What the gate handler does with one request: write an HTTP error
(`http.Error(w, body, status)`, the chain halted), or invoke `next` with the
request carrying the given context. -/
inductive GateResult (C : Type) where
  | response (status : Nat) (body : String)
  | next (ctx : Context C)

/-- `JwtHS256` (source lines 25–56), the per-request handler produced by the
middleware.  `secret` is the gate's secret; `validC` is the `Valid` method of
the claim set produced by the factory `cf`; `decode` is the structural decode
of the located bearer string (external base64/JSON machinery, modelled from
the spec); `ctx` is the incoming request's context. -/
def JwtHS256 {C : Type} (secret : String) (hmac : String → String → String)
    (validC : C → Bool) (decode : String → TokenWire C) (r : Request)
    (ctx : Context C) : GateResult C :=
  if (Bearer r).found = false then
    .response 401 "no JSON web token in request"
  else
    match parseWithClaims secret hmac validC (decode (Bearer r).bearer) with
    | .err msg => .response 403 msg
    | .ok claims valid =>
      if valid = false then
        .response 403 "token is invalid"
      else
        .next (withValue ctx CtxKey.claimsKey (CtxVal.claimsVal claims))

/-! ### Helper lemmas -/

theorem getAll_append (a b : Values) (k : String) :
    getAll (a ++ b) k = getAll a k ++ getAll b k := by
  unfold getAll
  rw [List.filter_append, List.map_append]

theorem firstNonEmpty_eq_none (l : List String) (h : ∀ v ∈ l, v = "") :
    firstNonEmpty l = none := by
  induction l with
  | nil => rfl
  | cons v vs ih =>
    have hv : v = "" := h v (List.mem_cons_self v vs)
    simp only [firstNonEmpty, hv, ne_eq, not_true_eq_false, if_false]
    exact ih (fun u hu => h u (List.mem_cons_of_mem v hu))

theorem firstNonEmpty_some_ne (l : List String) (v : String)
    (h : firstNonEmpty l = some v) : v ≠ "" := by
  induction l with
  | nil => simp [firstNonEmpty] at h
  | cons u us ih =>
    by_cases hu : u = ""
    · simp only [firstNonEmpty, hu, ne_eq, not_true_eq_false, if_false] at h
      exact ih h
    · simp only [firstNonEmpty, ne_eq, hu, not_false_eq_true, if_true,
        Option.some.injEq] at h
      rw [← h]; exact hu

theorem firstOrEmpty_eq_empty (l : List String) (h : ∀ v ∈ l, v = "") :
    firstOrEmpty l = "" := by
  cases l with
  | nil => rfl
  | cons v vs => exact h v (List.mem_cons_self v vs)

theorem headerGet_eq_empty (vs : Values) (k : String)
    (h : ∀ v ∈ getAll vs k, v = "") : headerGet vs k = "" :=
  firstOrEmpty_eq_empty _ h

theorem getAll_eraseKey_self (vs : Values) (k : String) :
    getAll (eraseKey vs k) k = [] := by
  unfold getAll eraseKey
  rw [List.filter_filter]
  have : ∀ p : String × String, (decide (p.1 = k) && decide (p.1 ≠ k)) = false := by
    intro p
    by_cases h : p.1 = k <;> simp [h]
  simp only [Bool.and_comm] at this ⊢
  rw [List.filter_congr (fun p _ => this p)]
  simp

theorem getAll_eraseKey_ne (vs : Values) (k j : String) (h : j ≠ k) :
    getAll (eraseKey vs k) j = getAll vs j := by
  unfold getAll eraseKey
  rw [List.filter_filter]
  congr 1
  apply List.filter_congr
  intro p _
  by_cases hp : p.1 = j
  · simp [hp, h]
  · simp [hp]

theorem firstNonEmpty_append (l1 : List String) (v : String) (l2 : List String)
    (h1 : ∀ u ∈ l1, u = "") (hv : v ≠ "") :
    firstNonEmpty (l1 ++ v :: l2) = some v := by
  induction l1 with
  | nil => simp [firstNonEmpty, hv]
  | cons u us ih =>
    have hu : u = "" := h1 u (List.mem_cons_self u us)
    simp only [List.cons_append, firstNonEmpty, hu, ne_eq, not_true_eq_false,
      if_false]
    exact ih (fun x hx => h1 x (List.mem_cons_of_mem u hx))

/-! ### The claims -/

/-- C10: whenever the locator reports `found = true`, the returned token
string is non-empty; the pair `("", true)` is never returned. -/
theorem bearer_found_nonempty (r : Request) (h : (Bearer r).found = true) :
    (Bearer r).bearer ≠ "" := by
  by_cases h1 : headerGet r.header jwtAuthKey = ""
  · rcases h2 : firstNonEmpty (getAll r.query jwtAuthKey) with _ | v
    · rcases h3 : r.postBody with _ | body
      · simp [Bearer, h1, h2, h3] at h
      · by_cases h4 : firstOrEmpty (getAll (body ++ r.query) jwtAuthKey) = ""
        · simp [Bearer, h1, h2, h3, h4] at h
        · simp [Bearer, h1, h2, h3, h4]
    · have hv := firstNonEmpty_some_ne _ _ h2
      simp [Bearer, h1, h2, hv]
  · simp [Bearer, h1]

theorem bearer_found_nonempty_witness :
    (Bearer ⟨[(jwtAuthKey, "tok10")], [], none⟩).found = true ∧
    (Bearer ⟨[(jwtAuthKey, "tok10")], [], none⟩).bearer ≠ "" :=
  ⟨by decide, bearer_found_nonempty ⟨[(jwtAuthKey, "tok10")], [], none⟩ (by decide)⟩

/-- C8: when neither the header nor the query yields a non-empty
Authorization value and parsing the body as a form fails, the locator
returns not-found (empty token, `found = false`) rather than propagating
the parse error. -/
theorem bearer_parse_fail_not_found (r : Request)
    (hh : ∀ v ∈ getAll r.header jwtAuthKey, v = "")
    (hq : ∀ v ∈ getAll r.query jwtAuthKey, v = "")
    (hb : r.postBody = none) :
    Bearer r = ⟨"", false, none, none⟩ := by
  have hh' := headerGet_eq_empty _ _ hh
  have hq' := firstNonEmpty_eq_none _ hq
  simp [Bearer, hh', hq', hb]

theorem bearer_parse_fail_not_found_witness :
    Bearer ⟨[("Accept", "x")], [(jwtAuthKey, "")], none⟩ = ⟨"", false, none, none⟩ :=
  bearer_parse_fail_not_found ⟨[("Accept", "x")], [(jwtAuthKey, "")], none⟩
    (by decide) (by decide) rfl

/-- C9: on a context that never passed through the gate — no value stored
under the private claims key, or a value of an unexpected dynamic type —
`GetClaimsFromContext` returns the zero value of the `Claims` interface
(`none`); it is a total function, so it never errors or panics. -/
theorem getClaims_graceful {C : Type} (ctx : Context C)
    (h : ctxValue ctx CtxKey.claimsKey = none ∨
         ctxValue ctx CtxKey.claimsKey = some CtxVal.otherVal) :
    GetClaimsFromContext ctx = none := by
  rcases h with h | h <;> simp [GetClaimsFromContext, h]

theorem getClaims_graceful_witness :
    GetClaimsFromContext ([(CtxKey.otherKey "k", CtxVal.claimsVal 3),
      (CtxKey.claimsKey, CtxVal.otherVal)] : Context Nat) = none :=
  getClaims_graceful _ (Or.inr rfl)

/-- C5: the locator selects the token by fixed precedence.  A non-empty
Authorization header value is returned first; otherwise, when the
(possibly-repeated) Authorization query parameters are some empty values
followed by a non-empty one, that first non-empty value is returned; and
whenever the header or the query yields a non-empty value, the result is
independent of the form body — the body is consulted only if both header
and query yield no non-empty value. -/
theorem bearer_precedence (r : Request) :
    (headerGet r.header jwtAuthKey ≠ "" →
      Bearer r = ⟨headerGet r.header jwtAuthKey, true, none, none⟩) ∧
    (headerGet r.header jwtAuthKey = "" →
      ∀ l1 v l2, getAll r.query jwtAuthKey = l1 ++ v :: l2 →
        (∀ u ∈ l1, u = "") → v ≠ "" →
          Bearer r = ⟨v, true, none, none⟩) ∧
    ((headerGet r.header jwtAuthKey ≠ "" ∨
        (∃ v, firstNonEmpty (getAll r.query jwtAuthKey) = some v)) →
      ∀ b, Bearer r = Bearer ⟨r.header, r.query, b⟩) := by
  refine ⟨?_, ?_, ?_⟩
  · intro hh
    simp [Bearer, hh]
  · intro hh l1 v l2 hq h1 hv
    have hq' : firstNonEmpty (getAll r.query jwtAuthKey) = some v := by
      rw [hq]
      exact firstNonEmpty_append l1 v l2 h1 hv
    simp [Bearer, hh, hq']
  · rintro (hh | ⟨v, hv⟩) b
    · simp [Bearer, hh]
    · by_cases hh : headerGet r.header jwtAuthKey = ""
      · simp [Bearer, hh, hv]
      · simp [Bearer, hh]

theorem bearer_precedence_witness :
    Bearer ⟨[(jwtAuthKey, "th5")], [(jwtAuthKey, "tq5")], some [(jwtAuthKey, "tf5")]⟩ =
      ⟨"th5", true, none, none⟩ ∧
    Bearer ⟨[], [(jwtAuthKey, ""), (jwtAuthKey, "tq5")], some [(jwtAuthKey, "tf5")]⟩ =
      ⟨"tq5", true, none, none⟩ :=
  ⟨(bearer_precedence ⟨[(jwtAuthKey, "th5")], [(jwtAuthKey, "tq5")],
      some [(jwtAuthKey, "tf5")]⟩).1 (by decide),
   (bearer_precedence ⟨[], [(jwtAuthKey, ""), (jwtAuthKey, "tq5")],
      some [(jwtAuthKey, "tf5")]⟩).2.1 rfl [""] "tq5" []
      (by decide) (by decide) (by decide)⟩

/-- C4: when the token is located in the form body, after `Bearer` returns
the Authorization field is absent from the parsed form values downstream
handlers see (`r.PostForm`, from which the source deletes the key), while
every other form field keeps exactly its values. -/
theorem bearer_form_scrub (r : Request) (body : Values)
    (hh : ∀ v ∈ getAll r.header jwtAuthKey, v = "")
    (hq : ∀ v ∈ getAll r.query jwtAuthKey, v = "")
    (hb : r.postBody = some body)
    (hf : firstOrEmpty (getAll (body ++ r.query) jwtAuthKey) ≠ "") :
    (Bearer r).found = true ∧
    (Bearer r).postForm = some (eraseKey body jwtAuthKey) ∧
    getAll (eraseKey body jwtAuthKey) jwtAuthKey = [] ∧
    ∀ k, k ≠ jwtAuthKey → getAll (eraseKey body jwtAuthKey) k = getAll body k := by
  have hh' := headerGet_eq_empty _ _ hh
  have hq' := firstNonEmpty_eq_none _ hq
  refine ⟨?_, ?_, getAll_eraseKey_self body jwtAuthKey,
    fun k hk => getAll_eraseKey_ne body jwtAuthKey k hk⟩
  · simp [Bearer, hh', hq', hb, hf]
  · simp [Bearer, hh', hq', hb, hf]

theorem bearer_form_scrub_witness :
    ((Bearer ⟨[], [], some [("a", "1"), (jwtAuthKey, "t4"), ("b", "2")]⟩).found = true ∧
      (Bearer ⟨[], [], some [("a", "1"), (jwtAuthKey, "t4"), ("b", "2")]⟩).postForm =
        some (eraseKey [("a", "1"), (jwtAuthKey, "t4"), ("b", "2")] jwtAuthKey)) ∧
    getAll (eraseKey [("a", "1"), (jwtAuthKey, "t4"), ("b", "2")] jwtAuthKey) "b" =
      getAll [("a", "1"), (jwtAuthKey, "t4"), ("b", "2")] "b" :=
  have h := bearer_form_scrub ⟨[], [], some [("a", "1"), (jwtAuthKey, "t4"), ("b", "2")]⟩
    [("a", "1"), (jwtAuthKey, "t4"), ("b", "2")] (by decide) (by decide) rfl (by decide)
  ⟨⟨h.1, h.2.1⟩, h.2.2.2 "b" (by decide)⟩

/-- C3: when no non-empty Authorization value exists in the header, the URL
query parameters, or the form body, the gate responds 401 with body
"no JSON web token in request" and the next handler is never invoked. -/
theorem jwtHS256_no_token_401 {C : Type} (secret : String)
    (hmac : String → String → String) (validC : C → Bool)
    (decode : String → TokenWire C) (r : Request) (ctx : Context C)
    (hh : ∀ v ∈ getAll r.header jwtAuthKey, v = "")
    (hq : ∀ v ∈ getAll r.query jwtAuthKey, v = "")
    (hb : ∀ body, r.postBody = some body → ∀ v ∈ getAll body jwtAuthKey, v = "") :
    JwtHS256 secret hmac validC decode r ctx =
      GateResult.response 401 "no JSON web token in request" := by
  have hh' := headerGet_eq_empty _ _ hh
  have hq' := firstNonEmpty_eq_none _ hq
  have hfound : (Bearer r).found = false := by
    rcases h3 : r.postBody with _ | body
    · simp [Bearer, hh', hq', h3]
    · have hempty : firstOrEmpty (getAll (body ++ r.query) jwtAuthKey) = "" := by
        apply firstOrEmpty_eq_empty
        intro v hv
        rw [getAll_append] at hv
        rcases List.mem_append.mp hv with hm | hm
        · exact hb body h3 v hm
        · exact hq v hm
      simp [Bearer, hh', hq', h3, hempty]
  simp [JwtHS256, hfound]

theorem jwtHS256_no_token_401_witness :
    JwtHS256 "s3" (fun _ m => m) (fun _ : Nat => true)
      (fun _ => TokenWire.malformed "m3")
      ⟨[("X-Other", "v")], [(jwtAuthKey, "")], some [("user", "bob")]⟩ [] =
      GateResult.response 401 "no JSON web token in request" :=
  jwtHS256_no_token_401 "s3" (fun _ m => m) (fun _ : Nat => true)
    (fun _ => TokenWire.malformed "m3")
    ⟨[("X-Other", "v")], [(jwtAuthKey, "")], some [("user", "bob")]⟩ []
    (by decide) (by decide)
    (fun body hbody => by injection hbody with h; subst h; decide)

/-- C1: for a located token whose decoded header declares a signing
algorithm outside the HMAC family, the gate responds 403 — with the
algorithm-confusion error message — and never reaches `next`, for every
signature content `sig` the token may carry. -/
theorem jwtHS256_rejects_non_hmac {C : Type} (secret : String)
    (hmac : String → String → String) (validC : C → Bool)
    (decode : String → TokenWire C) (r : Request) (ctx : Context C)
    (alg : Alg) (claims : C) (signingInput sig : String)
    (hfound : (Bearer r).found = true)
    (hdec : decode (Bearer r).bearer =
      TokenWire.wellFormed alg claims signingInput sig)
    (halg : alg.hmacFamily = false) :
    JwtHS256 secret hmac validC decode r ctx =
      GateResult.response 403 ("unexpected signing method: " ++ alg.name) := by
  simp [JwtHS256, hfound, hdec, parseWithClaims, halg]

theorem jwtHS256_rejects_non_hmac_witness :
    JwtHS256 "s1" (fun _ m => m) (fun _ : Nat => true)
      (fun _ => TokenWire.wellFormed ⟨"RS256", false⟩ 7 "hp1" "sg1")
      ⟨[(jwtAuthKey, "t1")], [], none⟩ [] =
      GateResult.response 403 ("unexpected signing method: " ++ "RS256") :=
  jwtHS256_rejects_non_hmac "s1" (fun _ m => m) (fun _ : Nat => true)
    (fun _ => TokenWire.wellFormed ⟨"RS256", false⟩ 7 "hp1" "sg1")
    ⟨[(jwtAuthKey, "t1")], [], none⟩ [] ⟨"RS256", false⟩ 7 "hp1" "sg1"
    (by decide) rfl rfl

/-- C6: for a located token that fails to parse or verify for any reason —
malformed structure, algorithm mismatch, signature mismatch, or a claim
payload decode error — the gate responds 403 with the underlying error's
message as body, and `next` is not invoked. -/
theorem jwtHS256_parse_error_403 {C : Type} (secret : String)
    (hmac : String → String → String) (validC : C → Bool)
    (decode : String → TokenWire C) (r : Request) (ctx : Context C)
    (msg : String)
    (hfound : (Bearer r).found = true)
    (herr : parseWithClaims secret hmac validC (decode (Bearer r).bearer) =
      ParseResult.err msg) :
    JwtHS256 secret hmac validC decode r ctx = GateResult.response 403 msg := by
  simp [JwtHS256, hfound, herr]

theorem jwtHS256_parse_error_403_witness :
    JwtHS256 "s6" (fun _ m => m) (fun _ : Nat => true)
      (fun _ => TokenWire.malformed "bad token")
      ⟨[(jwtAuthKey, "t6")], [], none⟩ [] =
      GateResult.response 403 "bad token" :=
  jwtHS256_parse_error_403 "s6" (fun _ m => m) (fun _ : Nat => true)
    (fun _ => TokenWire.malformed "bad token")
    ⟨[(jwtAuthKey, "t6")], [], none⟩ [] "bad token" (by decide) rfl

/-- C7: for a located token that parses and verifies cryptographically (HMAC
family, signature matches the gate's secret) but whose claims fail their own
validity check, the gate responds 403 with the fixed body
"token is invalid", and `next` is not invoked. -/
theorem jwtHS256_invalid_claims_403 {C : Type} (secret : String)
    (hmac : String → String → String) (validC : C → Bool)
    (decode : String → TokenWire C) (r : Request) (ctx : Context C)
    (alg : Alg) (claims : C) (signingInput sig : String)
    (hfound : (Bearer r).found = true)
    (hdec : decode (Bearer r).bearer =
      TokenWire.wellFormed alg claims signingInput sig)
    (halg : alg.hmacFamily = true)
    (hsig : hmac secret signingInput = sig)
    (hvalid : validC claims = false) :
    JwtHS256 secret hmac validC decode r ctx =
      GateResult.response 403 "token is invalid" := by
  simp [JwtHS256, hfound, hdec, parseWithClaims, halg, hsig, hvalid]

theorem jwtHS256_invalid_claims_403_witness :
    JwtHS256 "s7" (fun s m => s ++ m) (fun _ : Nat => false)
      (fun _ => TokenWire.wellFormed ⟨"HS256", true⟩ 5 "hp7" "s7hp7")
      ⟨[(jwtAuthKey, "t7")], [], none⟩ [] =
      GateResult.response 403 "token is invalid" :=
  jwtHS256_invalid_claims_403 "s7" (fun s m => s ++ m) (fun _ : Nat => false)
    (fun _ => TokenWire.wellFormed ⟨"HS256", true⟩ 5 "hp7" "s7hp7")
    ⟨[(jwtAuthKey, "t7")], [], none⟩ [] ⟨"HS256", true⟩ 5 "hp7" "s7hp7"
    (by decide) rfl rfl rfl rfl

/-- C2: for a located token that is validly HMAC-signed with the gate's
secret and whose claims pass their own validity check, the gate invokes
`next` with the request's context augmented by the decoded claim set, and
`GetClaimsFromContext` on that augmented context returns exactly the
decoded claims. -/
theorem jwtHS256_valid_token_next {C : Type} (secret : String)
    (hmac : String → String → String) (validC : C → Bool)
    (decode : String → TokenWire C) (r : Request) (ctx : Context C)
    (alg : Alg) (claims : C) (signingInput sig : String)
    (hfound : (Bearer r).found = true)
    (hdec : decode (Bearer r).bearer =
      TokenWire.wellFormed alg claims signingInput sig)
    (halg : alg.hmacFamily = true)
    (hsig : hmac secret signingInput = sig)
    (hvalid : validC claims = true) :
    JwtHS256 secret hmac validC decode r ctx =
      GateResult.next (withValue ctx CtxKey.claimsKey (CtxVal.claimsVal claims)) ∧
    GetClaimsFromContext (withValue ctx CtxKey.claimsKey (CtxVal.claimsVal claims)) =
      some claims := by
  constructor
  · simp [JwtHS256, hfound, hdec, parseWithClaims, halg, hsig, hvalid]
  · simp [GetClaimsFromContext, withValue, ctxValue]

theorem jwtHS256_valid_token_next_witness :
    JwtHS256 "s2" (fun s m => s ++ m) (fun _ : Nat => true)
      (fun _ => TokenWire.wellFormed ⟨"HS256", true⟩ 42 "hp2" "s2hp2")
      ⟨[(jwtAuthKey, "t2")], [], none⟩ [] =
      GateResult.next [(CtxKey.claimsKey, CtxVal.claimsVal 42)] ∧
    GetClaimsFromContext [(CtxKey.claimsKey, CtxVal.claimsVal (42 : Nat))] =
      some 42 :=
  jwtHS256_valid_token_next "s2" (fun s m => s ++ m) (fun _ : Nat => true)
    (fun _ => TokenWire.wellFormed ⟨"HS256", true⟩ 42 "hp2" "s2hp2")
    ⟨[(jwtAuthKey, "t2")], [], none⟩ [] ⟨"HS256", true⟩ 42 "hp2" "s2hp2"
    (by decide) rfl rfl rfl rfl

end MW
